import Mathlib

/-!
Shallow embedding of the raster filter pipeline of `src/lib/imageUtils.ts`.

A pixel buffer (`ImageData.data`, a `Uint8ClampedArray`) is modelled as a
`List ℕ` of byte samples in RGBA order.  JavaScript numbers appearing in the
filter arithmetic are modelled as exact rationals (`ℚ`); where a computation
can produce NaN (reading an out-of-range index of a typed array yields
`undefined`, and any arithmetic on it yields NaN) the value is modelled as
`Option ℚ` with `none` standing for NaN.  Storing a number into a
`Uint8ClampedArray` clamps it to `[0,255]` and rounds to the nearest integer
with ties to even (ECMAScript `ToUint8Clamp`); storing NaN yields `0`.
-/

namespace ImageUtils

/-- Round half to even of a rational, as in ECMAScript `ToUint8Clamp`:
floor, then round up when the fraction exceeds one half, down when below,
and to the even neighbour on a tie. -/
def rhe (q : ℚ) : ℤ :=
  if q - ⌊q⌋ < 1/2 then ⌊q⌋
  else if 1/2 < q - ⌊q⌋ then ⌊q⌋ + 1
  else if 2 ∣ ⌊q⌋ then ⌊q⌋ else ⌊q⌋ + 1

/-- Uint8ClampedArray store conversion of a (non-NaN) number: clamp to
`[0,255]`, then round half to even. -/
def u8 (q : ℚ) : ℕ :=
  if q ≤ 0 then 0
  else if 255 ≤ q then 255
  else (rhe q).toNat

theorem rhe_le_floor_add_one (q : ℚ) : rhe q ≤ ⌊q⌋ + 1 := by
  unfold rhe
  split
  · exact le_of_lt (lt_add_one _)
  · split
    · exact le_refl _
    · split
      · exact le_of_lt (lt_add_one _)
      · exact le_refl _

theorem u8_le (q : ℚ) : u8 q ≤ 255 := by
  unfold u8
  split
  · exact Nat.zero_le _
  · split
    · exact le_refl _
    · rename_i h0 h255
      have hq : q < 255 := lt_of_not_le h255
      have hf : ⌊q⌋ < 255 := by
        have := (Int.floor_lt (α := ℚ) (z := 255)).mpr (by exact_mod_cast hq)
        exact_mod_cast this
      have := rhe_le_floor_add_one q
      omega

theorem u8_nat (v : ℕ) (h : v ≤ 255) : u8 (v : ℚ) = v := by
  unfold u8
  split
  · rename_i h0
    have : (v : ℚ) = 0 := le_antisymm h0 (by positivity)
    exact_mod_cast this.symm
  · split
    · rename_i h0 h255
      have : (255 : ℚ) ≤ (v : ℚ) := h255
      have hv : 255 ≤ v := by exact_mod_cast this
      omega
    · unfold rhe
      have hfl : ⌊(v : ℚ)⌋ = (v : ℤ) := Int.floor_natCast v
      rw [hfl]
      have : (v : ℚ) - ((v : ℤ) : ℚ) = 0 := by push_cast; ring
      rw [this]
      norm_num

/-- Store of a value already known to be a byte, through the final
`Math.max(0, Math.min(255, x))` of the tone mappers. -/
theorem u8_store_nat (v : ℕ) (h : v ≤ 255) :
    u8 (max 0 (min 255 (v : ℚ))) = v := by
  have h' : (v : ℚ) ≤ 255 := by exact_mod_cast h
  rw [min_eq_right h', max_eq_right (by positivity), u8_nat v h]

/-- Map a per-pixel transform over an RGBA buffer: each loop iteration of the
tone mappers reads the three colour samples of one pixel, writes back three
transformed colour samples at offsets 0,1,2, and leaves the alpha sample at
offset 3 alone, advancing by 4.  A trailing fragment shorter than one pixel is
returned unchanged. -/
def mapRGBA (f : ℕ → ℕ → ℕ → ℕ × ℕ × ℕ) : List ℕ → List ℕ
  | a :: b :: c :: d :: t =>
      (f a b c).1 :: (f a b c).2.1 :: (f a b c).2.2 :: d :: mapRGBA f t
  | l => l

/-- Loop body of `applyRestorationFilter` (imageUtils.ts lines 72-86) on one
colour sample: contrast stretch `(v-128)*(1+strength*0.5)+128` capped above by
`Math.min(255, ·)` and stored through the clamped byte array, then, when
`strength > 0.3`, the stored byte is blended toward 128 by
`blur = strength*0.2` and stored again. -/
def restoreSample (s : ℚ) (v : ℕ) : ℕ :=
  let v1 := u8 (min 255 (((v : ℚ) - 128) * (1 + s * (5/10)) + 128))
  if 3/10 < s then u8 ((v1 : ℚ) * (1 - s * (2/10)) + 128 * (s * (2/10))) else v1

/-- Restoration filter on a whole buffer (imageUtils.ts lines 62-89): the
per-sample transform applied to R, G and B of every pixel, alpha untouched. -/
def applyRestorationFilter (s : ℚ) : List ℕ → List ℕ :=
  mapRGBA fun a b c => (restoreSample s a, restoreSample s b, restoreSample s c)

/-- Vintage branch of `applyStyleTransfer` (imageUtils.ts lines 160-165):
the local variables `r`, `g`, `b` are reassigned in sequence, so the `g` line
reads the already-updated `r`, and the `b` line reads the already-updated `r`
and `g`. -/
def vintageChained (i r g b : ℚ) : ℚ × ℚ × ℚ :=
  let rv := min 255 ((r * (393/1000) + g * (769/1000) + b * (189/1000)) * i + r * (1 - i))
  let gv := min 255 ((rv * (349/1000) + g * (686/1000) + b * (168/1000)) * i + g * (1 - i))
  let bv := min 255 ((rv * (272/1000) + gv * (534/1000) + b * (131/1000)) * i + b * (1 - i))
  (rv, gv, bv)

/-- Variant of the vintage branch in which the `g` and `b` lines read the
pixel's original `r` instead of the sepia-updated one (what the spec says a
naive reading would compute); used only to compare against
`vintageChained`. -/
def vintageFromOriginalR (i r g b : ℚ) : ℚ × ℚ × ℚ :=
  let rv := min 255 ((r * (393/1000) + g * (769/1000) + b * (189/1000)) * i + r * (1 - i))
  let gv := min 255 ((r * (349/1000) + g * (686/1000) + b * (168/1000)) * i + g * (1 - i))
  let bv := min 255 ((r * (272/1000) + gv * (534/1000) + b * (131/1000)) * i + b * (1 - i))
  (rv, gv, bv)

/-- Loop body of `applyStyleTransfer` (imageUtils.ts lines 154-197) on one
pixel: the per-style reassignment of the local `r`, `g`, `b` followed by the
three clamped stores `data[i+c] = Math.max(0, Math.min(255, ·))`.  A style
string not matched by the switch leaves `r`, `g`, `b` as read. -/
def styleSample (style : String) (i : ℚ) (r g b : ℕ) : ℕ × ℕ × ℕ :=
  let r0 : ℚ := r
  let g0 : ℚ := g
  let b0 : ℚ := b
  let rgb : ℚ × ℚ × ℚ :=
    if style = "vintage" then
      vintageChained i r0 g0 b0
    else if style = "cool" then
      (r0 * (1 - i * (2/10)), g0 * (1 - i * (1/10)), min 255 (b0 * (1 + i * (3/10))))
    else if style = "warm" then
      (min 255 (r0 * (1 + i * (3/10))), min 255 (g0 * (1 + i * (1/10))), b0 * (1 - i * (2/10)))
    else if style = "vivid" then
      let gray := (299/1000) * r0 + (587/1000) * g0 + (114/1000) * b0
      (min 255 (gray + (r0 - gray) * (1 + i)),
       min 255 (gray + (g0 - gray) * (1 + i)),
       min 255 (gray + (b0 - gray) * (1 + i)))
    else if style = "monochrome" then
      let mono := (299/1000) * r0 + (587/1000) * g0 + (114/1000) * b0
      (mono * (1 - i) + r0 * i, mono * (1 - i) + g0 * i, mono * (1 - i) + b0 * i)
    else (r0, g0, b0)
  (u8 (max 0 (min 255 rgb.1)), u8 (max 0 (min 255 rgb.2.1)), u8 (max 0 (min 255 rgb.2.2)))

/-- Style-transfer tone mapper on a whole buffer (imageUtils.ts lines
143-200). -/
def applyStyleTransfer (style : String) (i : ℚ) : List ℕ → List ℕ :=
  mapRGBA (styleSample style i)

/-- Loop body of `applyColorization` (imageUtils.ts lines 214-246) on one
pixel: luma of the original samples, scheme-specific redistribution, and the
three clamped stores.  An unmatched scheme keeps `newR = r` etc. -/
def colorSample (scheme : String) (i : ℚ) (r g b : ℕ) : ℕ × ℕ × ℕ :=
  let gray : ℚ := (299/1000) * r + (587/1000) * g + (114/1000) * b
  let rgb : ℚ × ℚ × ℚ :=
    if scheme = "natural" then
      (gray * (1 + i * (2/10)), gray * (1 + i * (1/10)), gray * (1 - i * (1/10)))
    else if scheme = "cool" then
      (gray * (1 - i * (3/10)), gray, gray * (1 + i * (4/10)))
    else if scheme = "warm" then
      (gray * (1 + i * (4/10)), gray * (1 + i * (2/10)), gray * (1 - i * (2/10)))
    else ((r : ℚ), (g : ℚ), (b : ℚ))
  (u8 (max 0 (min 255 rgb.1)), u8 (max 0 (min 255 rgb.2.1)), u8 (max 0 (min 255 rgb.2.2)))

/-- Colorization tone mapper on a whole buffer (imageUtils.ts lines
203-249). -/
def applyColorization (scheme : String) (i : ℚ) : List ℕ → List ℕ :=
  mapRGBA (colorSample scheme i)

/-- Read a byte of a typed array at a signed index: an index outside
`[0, length)` yields `none` (JavaScript yields `undefined`, which turns the
surrounding arithmetic into NaN). -/
def readZ (d : List ℕ) (j : ℤ) : Option ℕ :=
  if 0 ≤ j then d[j.toNat]? else none

/-- Luma `data[j]*0.299 + data[j+1]*0.587 + data[j+2]*0.114` as read by
`calculateAttentionScore`; NaN (`none`) when any of the three reads is out of
range. -/
def lumaAt (d : List ℕ) (j : ℤ) : Option ℚ := do
  let a ← readZ d j
  let b ← readZ d (j + 1)
  let c ← readZ d (j + 2)
  pure ((a : ℚ) * (299/1000) + (b : ℚ) * (587/1000) + (c : ℚ) * (114/1000))

/-- Absolute Laplacian term of one loop iteration of
`calculateAttentionScore` (imageUtils.ts lines 14-20), taps at `j`,
`j ± width*4` and `j ± 4`. -/
def lapAt (d : List ℕ) (w : ℕ) (j : ℤ) : Option ℚ := do
  let c ← lumaAt d j
  let t ← lumaAt d (j - 4 * w)
  let bo ← lumaAt d (j + 4 * w)
  let l ← lumaAt d (j - 4)
  let r ← lumaAt d (j + 4)
  pure |4 * c - t - bo - l - r|

/-- Byte offsets visited by the loop
`for (let i = width + 4; i < data.length - width*4 - 4; i += 4)`, shared by
`calculateAttentionScore` (imageUtils.ts line 13) and the sharpening pass of
`applySuperResolution` (line 124, with `newWidth` for `width`): it starts at
`width + 4` — not at the first interior pixel `(width+1)*4` — and stops
before `length - width*4 - 4`. -/
def loopIdx (len w : ℕ) : List ℕ :=
  (List.range len).filter fun j =>
    decide (w + 4 ≤ j ∧ (j - (w + 4)) % 4 = 0 ∧ (j : ℤ) < (len : ℤ) - 4 * w - 4)

/-- JavaScript `sum += x` where either side may be NaN. -/
def jsAdd : Option ℚ → Option ℚ → Option ℚ
  | some a, some b => some (a + b)
  | _, _ => none

/-- Sharpness/attention scorer (imageUtils.ts lines 2-26) on a buffer of
width `w`: mean absolute Laplacian over the visited offsets, divided by 50
and capped at 10; `0` when the loop runs zero iterations.  The result is
`none` when the JavaScript computation is NaN (out-of-range taps);
`Math.min(NaN, 10)` is NaN.  The scorer only reads the buffer and returns a
number; it never writes a sample. -/
def calculateAttentionScore (d : List ℕ) (w : ℕ) : Option ℚ :=
  let is := loopIdx d.length w
  let sum := is.foldl (fun acc j => jsAdd acc (lapAt d w (j : ℤ))) (some 0)
  if 0 < is.length then sum.map (fun s => min (s / is.length / 50) 10)
  else some 0

/-- Convolution tap of the sharpening pass: byte at
`i + (dy*newWidth + dx)*4 + channel` (imageUtils.ts line 130). -/
def tap (d : List ℕ) (w i c : ℕ) (dy dx : ℤ) : Option ℕ :=
  readZ d ((i : ℤ) + (dy * w + dx) * 4 + c)

/-- Kernel sum of one channel of one iteration of the sharpening pass
(imageUtils.ts lines 126-134), kernel `[0,-1,0,-1,5,-1,0,-1,0]` in row-major
`dy`,`dx` order; `none` (NaN) when any of the nine taps is out of range
(JavaScript `0 * undefined` is still NaN). -/
def convSum (d : List ℕ) (w i c : ℕ) : Option ℤ := do
  let a ← tap d w i c (-1) (-1)
  let b ← tap d w i c (-1) 0
  let e ← tap d w i c (-1) 1
  let f ← tap d w i c 0 (-1)
  let g ← tap d w i c 0 0
  let h ← tap d w i c 0 1
  let p ← tap d w i c 1 (-1)
  let q ← tap d w i c 1 0
  let r ← tap d w i c 1 1
  pure (0 * (a : ℤ) + (-1) * b + 0 * e + (-1) * f + 5 * g + (-1) * h
    + 0 * p + (-1) * q + 0 * r)

/-- Store `data[i+channel] = Math.max(0, Math.min(255, sum))`: NaN stores as
0 in a Uint8ClampedArray, an integer is clamped to `[0,255]`. -/
def storeConv : Option ℤ → ℕ
  | none => 0
  | some s => (max 0 (min 255 s)).toNat

/-- One iteration of the sharpening pass at offset `i`: the three channel
sums are computed and written sequentially against the buffer being
mutated. -/
def sharpenAt (w : ℕ) (d : List ℕ) (i : ℕ) : List ℕ :=
  let d0 := d.set i (storeConv (convSum d w i 0))
  let d1 := d0.set (i + 1) (storeConv (convSum d0 w i 1))
  d1.set (i + 2) (storeConv (convSum d1 w i 2))

/-- Sharpening pass of `applySuperResolution` (imageUtils.ts lines 119-137)
over the resampled buffer of width `w = newWidth`.  The bilinear resampling
itself is performed by the browser's `drawImage` (an external collaborator,
not code of this module); its output is the buffer this pass receives. -/
def applySuperResolutionSharpen (d : List ℕ) (w : ℕ) : List ℕ :=
  (loopIdx d.length w).foldl (sharpenAt w) d

/-- A 4×4 buffer whose every pixel is mid-gray (128,128,128,255). -/
def gray4x4 : List ℕ := (List.replicate 16 [128, 128, 128, 255]).flatten

/-- A 1×4 buffer, all samples 0 except sample 5 (the G sample of the second
pixel) set to 255. -/
def buf1x4 : List ℕ := [0, 0, 0, 0, 0, 255, 0, 0, 0, 0, 0, 0, 0, 0, 0, 0]

/-- A uniform 4×4 resampled buffer, every sample 100. -/
def flat64 : List ℕ := List.replicate 64 100

theorem mapRGBA_le (f : ℕ → ℕ → ℕ → ℕ × ℕ × ℕ)
    (hf : ∀ a b c, (f a b c).1 ≤ 255 ∧ (f a b c).2.1 ≤ 255 ∧ (f a b c).2.2 ≤ 255) :
    ∀ l : List ℕ, (∀ v ∈ l, v ≤ 255) → ∀ v ∈ mapRGBA f l, v ≤ 255
  | a :: b :: c :: d :: t, hl, v, hv => by
      simp only [mapRGBA, List.mem_cons] at hv
      rcases hv with h | h | h | h | h
      · exact h ▸ (hf a b c).1
      · exact h ▸ (hf a b c).2.1
      · exact h ▸ (hf a b c).2.2
      · exact h ▸ hl d (by simp)
      · exact mapRGBA_le f hf t (fun x hx => hl x (by simp [hx])) v h
  | [], _, v, hv => by simp [mapRGBA] at hv
  | [a], hl, v, hv => hl v hv
  | [a, b], hl, v, hv => hl v hv
  | [a, b, c], hl, v, hv => hl v hv

theorem mapRGBA_alpha (f : ℕ → ℕ → ℕ → ℕ × ℕ × ℕ) :
    ∀ (l : List ℕ) (k : ℕ), (mapRGBA f l)[4 * k + 3]? = l[4 * k + 3]?
  | a :: b :: c :: d :: t, 0 => by simp [mapRGBA]
  | a :: b :: c :: d :: t, k + 1 => by
      have ih := mapRGBA_alpha f t k
      have h4 : 4 * (k + 1) + 3 = 4 * k + 3 + 1 + 1 + 1 + 1 := by ring
      simp only [mapRGBA, h4, List.getElem?_cons_succ]
      exact ih
  | [], _ => rfl
  | [a], _ => rfl
  | [a, b], _ => rfl
  | [a, b, c], _ => rfl

theorem mapRGBA_id (f : ℕ → ℕ → ℕ → ℕ × ℕ × ℕ)
    (hf : ∀ a b c, a ≤ 255 → b ≤ 255 → c ≤ 255 → f a b c = (a, b, c)) :
    ∀ l : List ℕ, (∀ v ∈ l, v ≤ 255) → mapRGBA f l = l
  | a :: b :: c :: d :: t, hl => by
      have he := hf a b c (hl a (by simp)) (hl b (by simp)) (hl c (by simp))
      have ih := mapRGBA_id f hf t fun x hx => hl x (by simp [hx])
      simp only [mapRGBA, he, ih]
  | [], _ => rfl
  | [a], _ => rfl
  | [a, b], _ => rfl
  | [a, b, c], _ => rfl

theorem storeConv_le (o : Option ℤ) : storeConv o ≤ 255 := by
  cases o with
  | none => exact Nat.zero_le _
  | some s =>
      simp only [storeConv]
      omega

theorem restoreSample_le (s : ℚ) (v : ℕ) : restoreSample s v ≤ 255 := by
  unfold restoreSample
  split
  · exact u8_le _
  · exact u8_le _

theorem set_le (l : List ℕ) (i x : ℕ) (hx : x ≤ 255) (hl : ∀ v ∈ l, v ≤ 255) :
    ∀ v ∈ l.set i x, v ≤ 255 := by
  intro v hv
  rcases List.mem_or_eq_of_mem_set hv with h | h
  · exact hl v h
  · exact h ▸ hx

theorem sharpenAt_le (w : ℕ) (d : List ℕ) (i : ℕ) (hd : ∀ v ∈ d, v ≤ 255) :
    ∀ v ∈ sharpenAt w d i, v ≤ 255 := by
  unfold sharpenAt
  exact set_le _ _ _ (storeConv_le _)
    (set_le _ _ _ (storeConv_le _) (set_le _ _ _ (storeConv_le _) hd))

theorem foldl_sharpenAt_le (w : ℕ) :
    ∀ (is : List ℕ) (d : List ℕ), (∀ v ∈ d, v ≤ 255) →
      ∀ v ∈ is.foldl (sharpenAt w) d, v ≤ 255
  | [], d, hd => hd
  | i :: is, d, hd =>
      foldl_sharpenAt_le w is (sharpenAt w d i) (sharpenAt_le w d i hd)

/-- C1: Saturation invariant.  For every valid buffer (all samples are
bytes), every width and every parameter value, each sample of the buffer
after applying each of the mutating filters (restore, styleTransfer,
colorize, and the sharpening pass of upscale on the resampled buffer) lies
in `[0, 255]`; the scorer `calculateAttentionScore` is embedded as a pure
function returning only a number, so it leaves the buffer untouched by
construction.  Samples are naturals, so nonnegativity is inherent and the
bound `≤ 255` is the full invariant. -/
theorem C1_saturation (buf : List ℕ) (hbuf : ∀ v ∈ buf, v ≤ 255)
    (s i j : ℚ) (style scheme : String) (w : ℕ) :
    (∀ v ∈ applyRestorationFilter s buf, v ≤ 255) ∧
    (∀ v ∈ applyStyleTransfer style i buf, v ≤ 255) ∧
    (∀ v ∈ applyColorization scheme j buf, v ≤ 255) ∧
    (∀ v ∈ applySuperResolutionSharpen buf w, v ≤ 255) := by
  refine ⟨?_, ?_, ?_, ?_⟩
  · exact mapRGBA_le _
      (fun a b c => ⟨restoreSample_le s a, restoreSample_le s b, restoreSample_le s c⟩)
      buf hbuf
  · exact mapRGBA_le _ (fun a b c => ⟨u8_le _, u8_le _, u8_le _⟩) buf hbuf
  · exact mapRGBA_le _ (fun a b c => ⟨u8_le _, u8_le _, u8_le _⟩) buf hbuf
  · exact foldl_sharpenAt_le w (loopIdx buf.length w) buf hbuf

/-- Witness for C1 at a concrete buffer and concrete parameters. -/
theorem C1_saturation_witness :
    (∀ v ∈ ([0, 128, 255, 7] : List ℕ), v ≤ 255) ∧
    ((∀ v ∈ applyRestorationFilter 1 [0, 128, 255, 7], v ≤ 255) ∧
     (∀ v ∈ applyStyleTransfer "warm" (7/10) [0, 128, 255, 7], v ≤ 255) ∧
     (∀ v ∈ applyColorization "cool" (-3) [0, 128, 255, 7], v ≤ 255) ∧
     (∀ v ∈ applySuperResolutionSharpen [0, 128, 255, 7] 2, v ≤ 255)) :=
  ⟨by decide, C1_saturation [0, 128, 255, 7] (by decide) 1 (7/10) (-3) "warm" "cool" 2⟩

/-- C10: restore, styleTransfer and colorize never modify an alpha sample:
each loop advances in steps of 4 and writes only offsets 0, 1, 2 of each
pixel, so every sample at an index of the form `4k+3` is unchanged, for every
buffer and all parameter values. -/
theorem C10_alpha_untouched (buf : List ℕ) (s i j : ℚ) (style scheme : String)
    (k : ℕ) :
    (applyRestorationFilter s buf)[4 * k + 3]? = buf[4 * k + 3]? ∧
    (applyStyleTransfer style i buf)[4 * k + 3]? = buf[4 * k + 3]? ∧
    (applyColorization scheme j buf)[4 * k + 3]? = buf[4 * k + 3]? :=
  ⟨mapRGBA_alpha _ buf k, mapRGBA_alpha _ buf k, mapRGBA_alpha _ buf k⟩

/-- C3 (code bug): the scorer does not accumulate over the interior pixels,
and a buffer with width 1 (fewer than 3) does not score 0.  On the 1×4 buffer
`buf1x4` (all zero except sample 5), the loop runs one iteration at byte
offset 5 — a misaligned position whose luma reads straddle pixels — and
returns `6.0996`, while the claim demands `0` for width `< 3`.  (The loop of
imageUtils.ts line 13 starts at `width + 4`, not at the first interior pixel
`(width+1)*4`; its end bound `length - width*4 - 4` uses the correct stride,
and for widths `≥ 2` the top-neighbour read is out of range, making the
JavaScript result NaN.) -/
theorem C3_score_not_interior :
    calculateAttentionScore buf1x4 1 = some (15249/2500) ∧
    calculateAttentionScore buf1x4 1 ≠ some 0 := by
  have hidx : loopIdx buf1x4.length 1 = [5] := by decide
  have r5 : readZ buf1x4 5 = some 255 := by decide
  have r6 : readZ buf1x4 6 = some 0 := by decide
  have r7 : readZ buf1x4 7 = some 0 := by decide
  have r1 : readZ buf1x4 1 = some 0 := by decide
  have r2 : readZ buf1x4 2 = some 0 := by decide
  have r3 : readZ buf1x4 3 = some 0 := by decide
  have r9 : readZ buf1x4 9 = some 0 := by decide
  have r10 : readZ buf1x4 10 = some 0 := by decide
  have r11 : readZ buf1x4 11 = some 0 := by decide
  have h5 : lumaAt buf1x4 5 = some (15249/200) := by
    simp only [lumaAt, Option.bind_eq_bind]
    norm_num [r5, r6, r7, Option.some_bind]
  have h1 : lumaAt buf1x4 1 = some 0 := by
    simp only [lumaAt, Option.bind_eq_bind]
    norm_num [r1, r2, r3, Option.some_bind]
  have h9 : lumaAt buf1x4 9 = some 0 := by
    simp only [lumaAt, Option.bind_eq_bind]
    norm_num [r9, r10, r11, Option.some_bind]
  have hlap : lapAt buf1x4 1 5 = some (15249/50) := by
    simp only [lapAt, Option.bind_eq_bind]
    norm_num [h5, h1, h9, Option.some_bind]
  have hmain : calculateAttentionScore buf1x4 1 = some (15249/2500) := by
    simp only [calculateAttentionScore, hidx, List.foldl_cons, List.foldl_nil,
      List.length_singleton]
    norm_num [jsAdd, hlap]
  refine ⟨hmain, ?_⟩
  rw [hmain]
  simp only [ne_eq, Option.some.injEq]
  norm_num

/-- C8 (code bug): on the uniform 4×4 mid-gray buffer the scorer does not
return 0: its first iteration reads the top neighbour at byte offset `-8`,
out of range, so the JavaScript sum is NaN and `Math.min(NaN, 10)` is NaN
(modelled as `none`), not `0`. -/
theorem C8_uniform_score_nan :
    calculateAttentionScore gray4x4 4 = none ∧
    calculateAttentionScore gray4x4 4 ≠ some 0 := by
  constructor
  · decide
  · decide

/-- C4 (code bug): the sharpening pass of upscale does rewrite samples in the
outer 1-pixel ring.  On a uniform 4×4 resampled buffer (every sample 100),
the loop's first iteration is byte offset 8 — the R sample of pixel (2,0),
in the top row of the ring — and its convolution reads out-of-range indices,
so NaN is stored as 0: the ring sample changes from 100 to 0 instead of
being left as resampled. -/
theorem C4_sharpen_writes_ring :
    (applySuperResolutionSharpen flat64 4)[8]? = some 0 ∧ flat64[8]? = some 100 := by
  constructor
  · decide
  · decide

/-- C5 (corrected): `colorize('warm', 0.5)` on the 4×4 all-mid-gray buffer is
uniform with `R = 154 > 128` and `B = 115 < 128`, but `G` is not unchanged:
the warm scheme multiplies luma by `1 + 0.2*intensity = 1.1`, so
`G = round(140.8) = 141 > 128`. -/
theorem mapRGBA_replicate (f : ℕ → ℕ → ℕ → ℕ × ℕ × ℕ) (a b c d : ℕ) :
    ∀ n, mapRGBA f ((List.replicate n [a, b, c, d]).flatten) =
      (List.replicate n [(f a b c).1, (f a b c).2.1, (f a b c).2.2, d]).flatten
  | 0 => rfl
  | n + 1 => by
      simp only [List.replicate_succ, List.flatten_cons]
      show mapRGBA f (a :: b :: c :: d :: (List.replicate n [a, b, c, d]).flatten)
        = (f a b c).1 :: (f a b c).2.1 :: (f a b c).2.2 :: d ::
            (List.replicate n [(f a b c).1, (f a b c).2.1, (f a b c).2.2, d]).flatten
      simp only [mapRGBA, mapRGBA_replicate f a b c d n]

theorem colorSample_warm_gray :
    colorSample "warm" (1/2) 128 128 128 = (154, 141, 115) := by
  simp only [colorSample, String.reduceEq, reduceIte]
  have hgray : (299/1000 : ℚ) * ((128 : ℕ) : ℚ) + (587/1000) * ((128 : ℕ) : ℚ)
      + (114/1000) * ((128 : ℕ) : ℚ) = 128 := by push_cast; norm_num
  rw [hgray]
  have h154 : u8 (max 0 (min 255 ((128 : ℚ) * (1 + 1/2 * (4/10))))) = 154 := by
    unfold u8 rhe
    norm_num <;> decide
  have h141 : u8 (max 0 (min 255 ((128 : ℚ) * (1 + 1/2 * (2/10))))) = 141 := by
    unfold u8 rhe
    norm_num <;> decide
  have h115 : u8 (max 0 (min 255 ((128 : ℚ) * (1 - 1/2 * (2/10))))) = 115 := by
    unfold u8 rhe
    norm_num <;> decide
  rw [h154, h141, h115]

theorem C5_warm_gray_uniform :
    applyColorization "warm" (1/2) gray4x4 =
      (List.replicate 16 [154, 141, 115, 255]).flatten ∧
    128 < 154 ∧ 115 < 128 ∧ 128 < 141 := by
  refine ⟨?_, by decide, by decide, by decide⟩
  show mapRGBA (colorSample "warm" (1/2)) gray4x4 = _
  rw [show gray4x4 = (List.replicate 16 [128, 128, 128, 255]).flatten from rfl,
    mapRGBA_replicate, colorSample_warm_gray]

/-- Counterexample for C5 as stated: the G sample of the first pixel of the
output is not 128. -/
theorem C5_green_not_unchanged :
    (applyColorization "warm" (1/2) gray4x4)[1]? ≠ some 128 := by
  show (mapRGBA (colorSample "warm" (1/2)) gray4x4)[1]? ≠ some 128
  rw [show gray4x4 = (List.replicate 16 [128, 128, 128, 255]).flatten from rfl,
    mapRGBA_replicate, colorSample_warm_gray]
  decide

/-- Counterexample for C2 as stated: monochrome at intensity 0 replaces the
pixel (255,0,0,255) by its grayscale (76,76,76,255); the monochrome blend is
`mono*(1-intensity) + channel*intensity`, which at intensity 0 is full
grayscale, not the identity. -/
theorem styleSample_monochrome_red :
    styleSample "monochrome" 0 255 0 0 = (76, 76, 76) := by
  simp only [styleSample, String.reduceEq, reduceIte]
  norm_num [u8, rhe] <;> decide

/-- Counterexample for C2 as stated: monochrome at intensity 0 replaces the
pixel (255,0,0,255) by its grayscale (76,76,76,255); the monochrome blend is
`mono*(1-intensity) + channel*intensity`, which at intensity 0 is full
grayscale, not the identity. -/
theorem C2_monochrome_not_identity :
    applyStyleTransfer "monochrome" 0 [255, 0, 0, 255] ≠ [255, 0, 0, 255] := by
  show mapRGBA (styleSample "monochrome" 0) [255, 0, 0, 255] ≠ _
  simp only [mapRGBA, styleSample_monochrome_red]
  decide

theorem vintageChained_zero (r g b : ℚ) (hr : r ≤ 255) (hg : g ≤ 255)
    (hb : b ≤ 255) : vintageChained 0 r g b = (r, g, b) := by
  simp only [vintageChained, mul_zero, zero_mul, sub_zero, mul_one, zero_add,
    add_zero]
  rw [min_eq_right hr, min_eq_right hg, min_eq_right hb]

theorem styleSample_zero_id (style : String)
    (hstyle : style = "vintage" ∨ style = "cool" ∨ style = "warm" ∨ style = "vivid")
    (r g b : ℕ) (hr : r ≤ 255) (hg : g ≤ 255) (hb : b ≤ 255) :
    styleSample style 0 r g b = (r, g, b) := by
  have hr' : ((r : ℕ) : ℚ) ≤ 255 := by exact_mod_cast hr
  have hg' : ((g : ℕ) : ℚ) ≤ 255 := by exact_mod_cast hg
  have hb' : ((b : ℕ) : ℚ) ≤ 255 := by exact_mod_cast hb
  rcases hstyle with h | h | h | h <;> subst h
  · simp only [styleSample, String.reduceEq, reduceIte]
    rw [vintageChained_zero _ _ _ hr' hg' hb']
    show (u8 (max 0 (min 255 ((r : ℕ) : ℚ))), u8 (max 0 (min 255 ((g : ℕ) : ℚ))),
      u8 (max 0 (min 255 ((b : ℕ) : ℚ)))) = (r, g, b)
    rw [u8_store_nat r hr, u8_store_nat g hg, u8_store_nat b hb]
  · simp only [styleSample, String.reduceEq, reduceIte, zero_mul, mul_zero,
      sub_zero, mul_one, add_zero]
    rw [min_eq_right hb']
    rw [u8_store_nat r hr, u8_store_nat g hg, u8_store_nat b hb]
  · simp only [styleSample, String.reduceEq, reduceIte, zero_mul, mul_zero,
      sub_zero, mul_one, add_zero]
    rw [min_eq_right hr', min_eq_right hg']
    rw [u8_store_nat r hr, u8_store_nat g hg, u8_store_nat b hb]
  · simp only [styleSample, String.reduceEq, reduceIte, add_zero, mul_one]
    have hcan : ∀ x y : ℚ, x + (y - x) = y := fun x y => by ring
    simp only [hcan]
    rw [min_eq_right hr', min_eq_right hg', min_eq_right hb']
    rw [u8_store_nat r hr, u8_store_nat g hg, u8_store_nat b hb]

/-- C2 (corrected): styleTransfer with intensity 0 is the per-sample identity
for the styles vintage, cool, warm and vivid on every valid RGBA buffer; the
claim fails for monochrome (see the counterexample), whose blend is reversed
so that intensity 0 gives full grayscale. -/
theorem C2_style_zero_identity (buf : List ℕ) (hbuf : ∀ v ∈ buf, v ≤ 255)
    (hlen : buf.length % 4 = 0) (style : String)
    (hstyle : style = "vintage" ∨ style = "cool" ∨ style = "warm" ∨ style = "vivid") :
    applyStyleTransfer style 0 buf = buf :=
  mapRGBA_id _ (fun a b c ha hb hc => styleSample_zero_id style hstyle a b c ha hb hc)
    buf hbuf

/-- Witness for C2 at a concrete buffer and style. -/
theorem C2_style_zero_identity_witness :
    (∀ v ∈ ([10, 20, 30, 40] : List ℕ), v ≤ 255) ∧
    ([10, 20, 30, 40] : List ℕ).length % 4 = 0 ∧
    (("cool" : String) = "vintage" ∨ ("cool" : String) = "cool" ∨
      ("cool" : String) = "warm" ∨ ("cool" : String) = "vivid") ∧
    applyStyleTransfer "cool" 0 [10, 20, 30, 40] = [10, 20, 30, 40] :=
  ⟨by decide, by decide, by decide,
    C2_style_zero_identity [10, 20, 30, 40] (by decide) (by decide) "cool"
      (by decide)⟩

theorem styleSample_unknown_id (style : String) (i : ℚ)
    (h1 : style ≠ "vintage") (h2 : style ≠ "cool") (h3 : style ≠ "warm")
    (h4 : style ≠ "vivid") (h5 : style ≠ "monochrome")
    (r g b : ℕ) (hr : r ≤ 255) (hg : g ≤ 255) (hb : b ≤ 255) :
    styleSample style i r g b = (r, g, b) := by
  simp only [styleSample, if_neg h1, if_neg h2, if_neg h3, if_neg h4, if_neg h5]
  show (u8 (max 0 (min 255 ((r : ℕ) : ℚ))), u8 (max 0 (min 255 ((g : ℕ) : ℚ))),
    u8 (max 0 (min 255 ((b : ℕ) : ℚ)))) = (r, g, b)
  rw [u8_store_nat r hr, u8_store_nat g hg, u8_store_nat b hb]

/-- C9: for every valid buffer and every intensity, a style string outside
{vintage, cool, warm, vivid, monochrome} leaves every sample unchanged: the
switch has no default branch and the final
`Math.max(0, Math.min(255, ·))` store is the identity on byte samples. -/
theorem C9_unknown_style_identity (buf : List ℕ) (hbuf : ∀ v ∈ buf, v ≤ 255)
    (style : String)
    (hstyle : style ∉ (["vintage", "cool", "warm", "vivid", "monochrome"] : List String))
    (i : ℚ) :
    applyStyleTransfer style i buf = buf := by
  have h1 : style ≠ "vintage" := fun h => hstyle (by rw [h]; decide)
  have h2 : style ≠ "cool" := fun h => hstyle (by rw [h]; decide)
  have h3 : style ≠ "warm" := fun h => hstyle (by rw [h]; decide)
  have h4 : style ≠ "vivid" := fun h => hstyle (by rw [h]; decide)
  have h5 : style ≠ "monochrome" := fun h => hstyle (by rw [h]; decide)
  exact mapRGBA_id _
    (fun a b c ha hb hc => styleSample_unknown_id style i h1 h2 h3 h4 h5 a b c ha hb hc)
    buf hbuf

/-- Witness for C9 at a concrete buffer and an unmatched style string. -/
theorem C9_unknown_style_identity_witness :
    (∀ v ∈ ([1, 2, 3, 4, 250, 251, 252, 253] : List ℕ), v ≤ 255) ∧
    ("sepia" : String) ∉ (["vintage", "cool", "warm", "vivid", "monochrome"] : List String) ∧
    applyStyleTransfer "sepia" (7/10) [1, 2, 3, 4, 250, 251, 252, 253] =
      [1, 2, 3, 4, 250, 251, 252, 253] :=
  ⟨by decide, by decide,
    C9_unknown_style_identity [1, 2, 3, 4, 250, 251, 252, 253] (by decide) "sepia"
      (by decide) (7/10)⟩

theorem u8_max0 (q : ℚ) : u8 (max 0 q) = u8 q := by
  rcases le_total q 0 with h | h
  · rw [max_eq_left h]
    unfold u8
    rw [if_pos le_rfl, if_pos h]
  · rw [max_eq_right h]

/-- Per-sample restoration transform written from the words of the spec:
`v' = clamp((v-128)*(1+0.5*strength)+128, 0, 255)` — clamped at 0 below and
255 above — stored as a byte, then exactly when `strength > 0.3` the stored
sample is replaced by `v'*(1-0.2*strength) + 128*(0.2*strength)` and stored
again.  To be compared with `restoreSample`, the transform read off the
code. -/
def specRestoreSample (s : ℚ) (v : ℕ) : ℕ :=
  let v1 := u8 (max 0 (min 255 (((v : ℚ) - 128) * (1 + (5/10) * s) + 128)))
  if 3/10 < s then u8 ((v1 : ℚ) * (1 - (2/10) * s) + 128 * ((2/10) * s)) else v1

theorem specRestoreSample_eq (s : ℚ) (v : ℕ) :
    specRestoreSample s v = restoreSample s v := by
  simp only [specRestoreSample, restoreSample]
  have e1 : ((v : ℚ) - 128) * (1 + (5/10) * s) + 128
      = ((v : ℚ) - 128) * (1 + s * (5/10)) + 128 := by ring
  rw [e1, u8_max0]
  have e2 : ∀ x : ℚ, x * (1 - (2/10) * s) + 128 * ((2/10) * s)
      = x * (1 - s * (2/10)) + 128 * (s * (2/10)) := fun x => by ring
  simp only [e2]

/-- C6: restore maps each colour sample `v` (offsets 0, 1, 2 of each pixel)
independently to the two-step transform the spec describes: the contrast
stretch clamped at both 0 (by the clamped byte store; the code writes only
`Math.min(255, ·)`) and 255, then, exactly when `strength > 0.3`, the blend
of the stored byte toward 128 by `0.2*strength`. -/
theorem C6_restore_pointwise :
    ∀ (buf : List ℕ) (s : ℚ), buf.length % 4 = 0 → ∀ (k r : ℕ), r < 3 →
      (applyRestorationFilter s buf)[4 * k + r]? =
        (buf[4 * k + r]?).map (specRestoreSample s)
  | a :: b :: c :: d :: t, s, h4, 0, r, hr => by
      interval_cases r <;>
        simp [applyRestorationFilter, mapRGBA, specRestoreSample_eq]
  | a :: b :: c :: d :: t, s, h4, k + 1, r, hr => by
      have h4t : t.length % 4 = 0 := by
        have : (a :: b :: c :: d :: t).length = t.length + 4 := by simp
        omega
      have ih := C6_restore_pointwise t s h4t k r hr
      have e : 4 * (k + 1) + r = 4 * k + r + 1 + 1 + 1 + 1 := by ring
      show (mapRGBA _ (a :: b :: c :: d :: t))[4 * (k + 1) + r]? = _
      simp only [mapRGBA, e, List.getElem?_cons_succ]
      exact ih
  | [], s, h4, k, r, hr => by
      simp [applyRestorationFilter, mapRGBA]
  | [a], s, h4, k, r, hr => by simp at h4
  | [a, b], s, h4, k, r, hr => by simp at h4
  | [a, b, c], s, h4, k, r, hr => by simp at h4

/-- Witness for C6 at a concrete buffer, strength above the blur threshold,
and a colour-sample index. -/
theorem C6_restore_pointwise_witness :
    ([5, 6, 7, 8] : List ℕ).length % 4 = 0 ∧ (1 : ℕ) < 3 ∧
    (applyRestorationFilter 1 [5, 6, 7, 8])[4 * 0 + 1]? =
      (([5, 6, 7, 8] : List ℕ)[4 * 0 + 1]?).map (specRestoreSample 1) :=
  ⟨by decide, by decide, C6_restore_pointwise [5, 6, 7, 8] 1 (by decide) 0 1 (by decide)⟩

/-- C7: in the vintage branch, the stored G and B samples are computed from
the already-updated R (and B also from the already-updated G): the loop body
equals the sequential chain `vintageChained`, and the chain differs from the
variant `vintageFromOriginalR` that reads the pixel's original R — at the
pixel (255,0,0) with intensity 1 both the G and the B results disagree. -/
theorem C7_vintage_sequential :
    (∀ (i : ℚ) (r g b : ℕ), styleSample "vintage" i r g b =
        (u8 (max 0 (min 255 (vintageChained i r g b).1)),
         u8 (max 0 (min 255 (vintageChained i r g b).2.1)),
         u8 (max 0 (min 255 (vintageChained i r g b).2.2)))) ∧
    (vintageChained 1 255 0 0).2.1 ≠ (vintageFromOriginalR 1 255 0 0).2.1 ∧
    (vintageChained 1 255 0 0).2.2 ≠ (vintageFromOriginalR 1 255 0 0).2.2 := by
  refine ⟨fun i r g b => ?_, ?_, ?_⟩
  · simp only [styleSample, String.reduceEq, reduceIte]
  · simp only [vintageChained, vintageFromOriginalR]
    norm_num
  · simp only [vintageChained, vintageFromOriginalR]
    norm_num

end ImageUtils
